import Mathlib

/-!
Shallow embedding of the discount-aggregator service in `src/main.py`.

The external world (HTTP responses of the upstream sites, the clock) is
modelled by an `Env` record of pure functions; a value of `none` for an
upstream response means the corresponding network request raised an
exception (network error, timeout, parse error) inside the fetcher.
Every fetcher also reports the list of network calls it attempted, so
that "zero network activity" properties can be stated.
-/

set_option autoImplicit false

namespace DollDay

/-- A normalized listing record as built by the fetchers in `main.py`.
Python builds heterogeneous dicts; fields absent from a given fetcher's
dict are modelled as `Option` fields defaulting to `none`. -/
structure Deal where
  title : String
  link : String
  price : String
  source : String
  store : Option String := none
  votes : Option String := none
  original_price : Option String := none
  category : Option String := none
deriving Repr, DecidableEq

/-- An `<item>` element of an RSS feed (slickdeals or groupon): the parsed
text of its `title` and `link` children. -/
structure RssItem where
  title : String
  link : String
deriving Repr, DecidableEq

/-- One product tile of a store catalog page (amazon/walmart/target).
`none` in `title`/`link` means the corresponding CSS selector matched
nothing, in which case the Python loop `continue`s past the item; `none`
in `price`/`originalPrice` triggers the `'N/A'` fallback. -/
structure StoreItem where
  title : Option String
  link : Option String
  price : Option String := none
  originalPrice : Option String := none
deriving Repr, DecidableEq

/-- A network request attempted by the aggregator, identified by the
upstream endpoint (and query parameter) it targets. -/
inductive NetCall where
  | slickdeals (zipcode : String)
  | groupon (catId : String)
  | amazon
  | walmart
  | target
deriving Repr, DecidableEq

/-- The external world: what each upstream endpoint would answer.
`none` models an exception raised while fetching or parsing that
endpoint. `now` is the value of `datetime.now().isoformat()`. -/
structure Env where
  slickdealsRss : String → Option (List RssItem)
  grouponRss : String → Option (List RssItem)
  amazonPage : Option (List StoreItem)
  walmartPage : Option (List StoreItem)
  targetPage : Option (List StoreItem)
  now : String

/-! ### Python dict operations

The response dicts are modelled as association lists with Python's
assignment semantics: `d[k] = v` overwrites the first (only) entry with
key `k` in place, otherwise appends a new entry at the end. -/

/-- Python dict assignment `d[k] = v`. -/
def dictInsert {α : Type} (d : List (String × α)) (k : String) (v : α) :
    List (String × α) :=
  match d with
  | [] => [(k, v)]
  | (k', v') :: rest =>
    if k' == k then (k, v) :: rest else (k', v') :: dictInsert rest k v

/-- Python dict lookup `d.get(k)`. -/
def dictGet {α : Type} (d : List (String × α)) (k : String) : Option α :=
  match d with
  | [] => none
  | (k', v) :: rest => if k' == k then some v else dictGet rest k

/-- The keys of a dict, in insertion order. -/
def dictKeys {α : Type} (d : List (String × α)) : List String :=
  d.map Prod.fst

/-! ### Request validation -/

/-- The non-ASCII codepoint ranges accepted by Python's per-character
digit test (characters of Unicode `Numeric_Type` `Decimal` or `Digit`):
the exact, exhaustive range table of every codepoint above U+007F for
which CPython (3.11, Unicode 14.0) reports `chr(cp).isdigit()`.
Inclusive bounds. -/
def pyDigitRangesNonAscii : List (Nat × Nat) :=
  [(0xB2, 0xB3), (0xB9, 0xB9), (0x660, 0x669), (0x6F0, 0x6F9), (0x7C0, 0x7C9), (0x966, 0x96F),
   (0x9E6, 0x9EF), (0xA66, 0xA6F), (0xAE6, 0xAEF), (0xB66, 0xB6F), (0xBE6, 0xBEF),
   (0xC66, 0xC6F), (0xCE6, 0xCEF), (0xD66, 0xD6F), (0xDE6, 0xDEF), (0xE50, 0xE59),
   (0xED0, 0xED9), (0xF20, 0xF29), (0x1040, 0x1049), (0x1090, 0x1099), (0x1369, 0x1371),
   (0x17E0, 0x17E9), (0x1810, 0x1819), (0x1946, 0x194F), (0x19D0, 0x19DA), (0x1A80, 0x1A89),
   (0x1A90, 0x1A99), (0x1B50, 0x1B59), (0x1BB0, 0x1BB9), (0x1C40, 0x1C49), (0x1C50, 0x1C59),
   (0x2070, 0x2070), (0x2074, 0x2079), (0x2080, 0x2089), (0x2460, 0x2468), (0x2474, 0x247C),
   (0x2488, 0x2490), (0x24EA, 0x24EA), (0x24F5, 0x24FD), (0x24FF, 0x24FF), (0x2776, 0x277E),
   (0x2780, 0x2788), (0x278A, 0x2792), (0xA620, 0xA629), (0xA8D0, 0xA8D9), (0xA900, 0xA909),
   (0xA9D0, 0xA9D9), (0xA9F0, 0xA9F9), (0xAA50, 0xAA59), (0xABF0, 0xABF9), (0xFF10, 0xFF19),
   (0x104A0, 0x104A9), (0x10A40, 0x10A43), (0x10D30, 0x10D39), (0x10E60, 0x10E68),
   (0x11052, 0x1105A), (0x11066, 0x1106F), (0x110F0, 0x110F9), (0x11136, 0x1113F),
   (0x111D0, 0x111D9), (0x112F0, 0x112F9), (0x11450, 0x11459), (0x114D0, 0x114D9),
   (0x11650, 0x11659), (0x116C0, 0x116C9), (0x11730, 0x11739), (0x118E0, 0x118E9),
   (0x11950, 0x11959), (0x11C50, 0x11C59), (0x11D50, 0x11D59), (0x11DA0, 0x11DA9),
   (0x16A60, 0x16A69), (0x16AC0, 0x16AC9), (0x16B50, 0x16B59), (0x1D7CE, 0x1D7FF),
   (0x1E140, 0x1E149), (0x1E2F0, 0x1E2F9), (0x1E950, 0x1E959), (0x1F100, 0x1F10A),
   (0x1FBF0, 0x1FBF9)]

/-- Python's per-character digit test underlying `str.isdigit`: an ASCII
digit, or any non-ASCII codepoint in the `pyDigitRangesNonAscii` table
above — exactly the characters Python's `isdigit` accepts. -/
def pyCharIsDigit (c : Char) : Bool :=
  ('0' ≤ c && c ≤ '9') ||
  pyDigitRangesNonAscii.any (fun r => r.1 ≤ c.toNat && c.toNat ≤ r.2)

/-- Python's `str.isdigit`: non-empty and every character is a digit. -/
def pyIsDigit (s : String) : Bool :=
  !s.isEmpty && s.data.all pyCharIsDigit

/-- The `validate_zip` field validator of `DiscountRequest`:
`if not v.isdigit() or len(v) != 5: raise ValueError(...)`.
Returns `true` when the zip is accepted. -/
def validate_zip (v : String) : Bool :=
  !(!pyIsDigit v || v.length != 5)

/-- An ASCII digit `0`-`9` (the character class `\d` of the claim's
regex `^\d{5}$`, read over ASCII). Spec-side definition used only to
compare the claimed validation rule with the implemented one. -/
def isAsciiDigit (c : Char) : Bool :=
  '0' ≤ c && c ≤ '9'

/-- The claimed validation rule: the zip consists of exactly 5 ASCII
digits (matches `^\d{5}$`). Spec-side definition. -/
def matchesAsciiZip5 (s : String) : Bool :=
  s.length == 5 && s.data.all isAsciiDigit

/-- The body of `POST /api/get-discounts` as parsed by pydantic; the
`stores` and `categories` fields carry the declared defaults. -/
structure DiscountRequest where
  country : String
  zip : String
  stores : List String := ["amazon", "walmart", "target", "slickdeals"]
  categories : List String := []
deriving Repr, DecidableEq

/-- An error response of the service: `validation` is the 422 produced
by FastAPI when a pydantic validator rejects the body, `http` is an
explicit `HTTPException(status_code, detail)`. -/
inductive ApiError where
  | validation (detail : String)
  | http (status : Nat) (detail : String)
deriving Repr, DecidableEq

/-- A client-error response (4xx), as opposed to a server error (5xx). -/
def isClientError : ApiError → Bool
  | ApiError.validation _ => true
  | ApiError.http status _ => 400 ≤ status && status < 500

/-! ### Source fetchers (`DiscountAggregator`) -/

/-- Python's `str.strip()`: remove leading and trailing whitespace
(written over the character list so that it evaluates by kernel
reduction). -/
def pyStrip (s : String) : String :=
  ⟨((s.data.dropWhile Char.isWhitespace).reverse.dropWhile Char.isWhitespace).reverse⟩

/-- The deal dict built for one RSS `<item>` in
`fetch_slickdeals_by_zip`. -/
def slickdeal_of_item (it : RssItem) : Deal :=
  { title := pyStrip it.title
    link := pyStrip it.link
    price := "N/A"
    store := some "N/A"
    votes := some "0"
    source := "Slickdeals" }

/-- `DiscountAggregator.fetch_slickdeals_by_zip`: fetches the zip-scoped
RSS feed, keeps the first 10 items, and converts each to a deal; any
exception is caught and yields `[]`. -/
def fetch_slickdeals_by_zip (env : Env) (zipcode : String) :
    List Deal × List NetCall :=
  match env.slickdealsRss zipcode with
  | none => ([], [NetCall.slickdeals zipcode])
  | some items => ((items.take 10).map slickdeal_of_item, [NetCall.slickdeals zipcode])

/-- The `category_map` dict of `fetch_category_deals`. -/
def category_map (category : String) : Option String :=
  if category == "restaurants" then some "food-and-drink"
  else if category == "entertainment" then some "things-to-do"
  else if category == "clothing" then some "apparel"
  else none

/-- The deal dict built for one RSS `<item>` in `fetch_category_deals`. -/
def groupon_deal_of_item (category : String) (it : RssItem) : Deal :=
  { title := pyStrip it.title
    link := pyStrip it.link
    price := "N/A"
    source := "Groupon"
    category := some category }

/-- `DiscountAggregator.fetch_category_deals`: unknown categories return
`[]` before any network request; known categories fetch the groupon
feed for the mapped category id, keep the first 10 items, and convert
each; any exception is caught and yields `[]`. The `zip_code` argument
is accepted but unused, as in the source. -/
def fetch_category_deals (env : Env) (zip_code : String) (category : String) :
    List Deal × List NetCall :=
  match category_map category with
  | none => ([], [])
  | some cat_id =>
    match env.grouponRss cat_id with
    | none => ([], [NetCall.groupon cat_id])
    | some items =>
      ((items.take 10).map (groupon_deal_of_item category), [NetCall.groupon cat_id])

/-- The deal dict built for one amazon search-result tile; `none` when a
required selector (`title`/`link`) is missing and the loop `continue`s. -/
def amazon_deal_of_item (it : StoreItem) : Option Deal :=
  match it.title, it.link with
  | some t, some l =>
    some { title := pyStrip t
           link := "https://www.amazon.com" ++ l
           price := (it.price.map pyStrip).getD "N/A"
           original_price := some ((it.originalPrice.map pyStrip).getD "N/A")
           source := "Amazon" }
  | _, _ => none

/-- The deal dict built for one walmart rollback tile. -/
def walmart_deal_of_item (it : StoreItem) : Option Deal :=
  match it.title, it.link with
  | some t, some l =>
    some { title := pyStrip t
           link := "https://www.walmart.com" ++ l
           price := (it.price.map pyStrip).getD "N/A"
           original_price := some ((it.originalPrice.map pyStrip).getD "N/A")
           source := "Walmart" }
  | _, _ => none

/-- The deal dict built for one target clearance tile. -/
def target_deal_of_item (it : StoreItem) : Option Deal :=
  match it.title, it.link with
  | some t, some l =>
    some { title := pyStrip t
           link := "https://www.target.com" ++ l
           price := (it.price.map pyStrip).getD "N/A"
           original_price := some ((it.originalPrice.map pyStrip).getD "N/A")
           source := "Target" }
  | _, _ => none

/-- `DiscountAggregator.fetch_amazon_deals`: fetches the offers page,
builds a deal per complete tile, and returns `deals[:10]`. It has no
try/except of its own, so a fetch/parse exception (`none`) propagates
to the caller as the `none` result. -/
def fetch_amazon_deals (env : Env) : Option (List Deal) × List NetCall :=
  match env.amazonPage with
  | none => (none, [NetCall.amazon])
  | some items => (some ((items.filterMap amazon_deal_of_item).take 10), [NetCall.amazon])

/-- `DiscountAggregator.fetch_walmart_deals` (same shape as amazon). -/
def fetch_walmart_deals (env : Env) : Option (List Deal) × List NetCall :=
  match env.walmartPage with
  | none => (none, [NetCall.walmart])
  | some items => (some ((items.filterMap walmart_deal_of_item).take 10), [NetCall.walmart])

/-- `DiscountAggregator.fetch_target_deals` (same shape as amazon). -/
def fetch_target_deals (env : Env) : Option (List Deal) × List NetCall :=
  match env.targetPage with
  | none => (none, [NetCall.target])
  | some items => (some ((items.filterMap target_deal_of_item).take 10), [NetCall.target])

/-- `DiscountAggregator.fetch_store_deals`: dispatches on the store key;
unknown keys return `[]` with no network request; an exception raised
by the dispatched fetcher is caught and yields `[]`. -/
def fetch_store_deals (env : Env) (store : String) : List Deal × List NetCall :=
  if store == "amazon" then
    ((fetch_amazon_deals env).1.getD [], (fetch_amazon_deals env).2)
  else if store == "walmart" then
    ((fetch_walmart_deals env).1.getD [], (fetch_walmart_deals env).2)
  else if store == "target" then
    ((fetch_target_deals env).1.getD [], (fetch_target_deals env).2)
  else
    ([], [])

/-! ### The aggregation endpoint (`get_discounts`) -/

/-- The response body of a successful `POST /api/get-discounts`. -/
structure AllDeals where
  slickdeals : List Deal
  store_deals : List (String × List Deal)
  category_deals : List (String × List Deal)
  timestamp : String
deriving Repr, DecidableEq

/-- `[s for s in req.stores if s != "slickdeals"]`. -/
def non_slick_stores (req : DiscountRequest) : List String :=
  req.stores.filter (fun s => s != "slickdeals")

/-- The `results` list produced by
`asyncio.gather(slickdeals_task, *store_tasks, *category_tasks)`:
the slickdeals result first, then one result per non-slickdeals store
in request order, then one result per category in request order. -/
def results_list (env : Env) (req : DiscountRequest) : List (List Deal) :=
  (fetch_slickdeals_by_zip env req.zip).1 ::
    ((non_slick_stores req).map (fun s => (fetch_store_deals env s).1) ++
      req.categories.map (fun c => (fetch_category_deals env req.zip c).1))

/-- All network calls attempted while serving the request (order of
concurrent calls is irrelevant to the properties stated here). -/
def calls_list (env : Env) (req : DiscountRequest) : List NetCall :=
  (fetch_slickdeals_by_zip env req.zip).2 ++
    (((non_slick_stores req).map (fun s => (fetch_store_deals env s).2)).flatten ++
      (req.categories.map (fun c => (fetch_category_deals env req.zip c).2)).flatten)

/-- The positional re-slicing loops of `get_discounts`:
`for i, store in enumerate(non_slick_stores): d[store] = results[i + offset]`
(with `offset = 1` for stores and `offset = len(non_slick_stores) + 1`
for categories). -/
def assignLoop (d : List (String × List Deal)) (keys : List String)
    (results : List (List Deal)) (i : Nat) : List (String × List Deal) :=
  match keys with
  | [] => d
  | k :: ks => assignLoop (dictInsert d k (results.getD i [])) ks results (i + 1)

/-- The `all_deals` dict assembled by `get_discounts` on the success
path: `results[0]` into `slickdeals`, `results[i+1]` into
`store_deals[non_slick_stores[i]]`, and
`results[len(non_slick_stores)+1+j]` into `category_deals[categories[j]]`. -/
def response (env : Env) (req : DiscountRequest) : AllDeals :=
  let results := results_list env req
  let ns := non_slick_stores req
  { slickdeals := results.getD 0 []
    store_deals := assignLoop [] ns results 1
    category_deals := assignLoop [] req.categories results (ns.length + 1)
    timestamp := env.now }

/-- The handler `get_discounts` (after pydantic validation): rejects
non-US countries with an `HTTPException(400, ...)` before constructing
the aggregator; otherwise gathers all fetch tasks and assembles the
response positionally. Nothing in the modelled `try` block can raise,
so the `except -> 500` branch is unreachable. The second component is
the list of network calls attempted. -/
def get_discounts (env : Env) (req : DiscountRequest) :
    Except ApiError AllDeals × List NetCall :=
  if req.country != "US" then
    (Except.error (ApiError.http 400 "Only USA is currently supported"), [])
  else
    (Except.ok (response env req), calls_list env req)

/-- The full endpoint as seen by a caller: pydantic runs `validate_zip`
while parsing the body, before the handler; a rejected zip yields a 422
validation error and no handler call. -/
def api_get_discounts (env : Env) (req : DiscountRequest) :
    Except ApiError AllDeals × List NetCall :=
  if validate_zip req.zip then
    get_discounts env req
  else
    (Except.error (ApiError.validation "ZIP code must be 5 digits"), [])

/-- The `GET /` handler `read_root`: a constant status payload; it
consults no cache and attempts no network call. -/
def read_root : List (String × String) × List NetCall :=
  ([("status", "Discount Aggregator API is running")], [])

/-! ### Correlation keys and the by-key assembler

`plan` lists the fetch tasks `get_discounts` creates, each under its
correlation key, in creation order. `taskResult` is the result the task
with a given key produces. `assemble_bykey` is the spec's assembler
(spec §4.5): it walks the task list and looks each task's result up by
its correlation key — the reference point for the refinement claim
about positional re-slicing. -/

/-- A correlation key: source kind plus identifier. -/
inductive CorrelationKey where
  | feed (identifier : String)
  | store (identifier : String)
  | category (identifier : String)
deriving Repr, DecidableEq

/-- The ordered task list `get_discounts` creates: the feed task, then
one store task per non-slickdeals store, then one category task per
category. -/
def plan (req : DiscountRequest) : List CorrelationKey :=
  CorrelationKey.feed req.zip ::
    ((non_slick_stores req).map CorrelationKey.store ++
      req.categories.map CorrelationKey.category)

/-- The result produced by the fetch task with the given correlation
key (category tasks also carry the request's zip, unused by the
fetcher). -/
def taskResult (env : Env) (req : DiscountRequest) : CorrelationKey → List Deal
  | CorrelationKey.feed z => (fetch_slickdeals_by_zip env z).1
  | CorrelationKey.store s => (fetch_store_deals env s).1
  | CorrelationKey.category c => (fetch_category_deals env req.zip c).1

/-- One step of the spec's assembler: place the current task's result —
looked up by its correlation key — into the slot the key designates. -/
def assembleStep (lookup : CorrelationKey → List Deal)
    (acc : List Deal × List (String × List Deal) × List (String × List Deal))
    (t : CorrelationKey) :
    List Deal × List (String × List Deal) × List (String × List Deal) :=
  match t with
  | CorrelationKey.feed _ => (lookup t, acc.2.1, acc.2.2)
  | CorrelationKey.store s => (acc.1, dictInsert acc.2.1 s (lookup t), acc.2.2)
  | CorrelationKey.category c => (acc.1, acc.2.1, dictInsert acc.2.2 c (lookup t))

/-- Modelled from the spec (§4.5 ResponseAssembler): walk the original
task list and look each task's result up by its correlation key,
placing feed results into the feed slot, store results under their
identifier, category results under their identifier. -/
def assemble_bykey (tasks : List CorrelationKey)
    (lookup : CorrelationKey → List Deal) :
    List Deal × List (String × List Deal) × List (String × List Deal) :=
  tasks.foldl (assembleStep lookup) ([], [], [])

/-! ### Failure injection

`failSource` makes exactly one upstream source always fail, leaving
every other source untouched — the hypothesis of the partial-failure
isolation claim. -/

/-- The configured upstream sources. -/
inductive SourceId where
  | feed
  | amazon
  | walmart
  | target
  | grouponCat (catId : String)
deriving Repr, DecidableEq

/-- The environment in which the given source always fails (raises)
and every other source behaves as in `env`. -/
def failSource (env : Env) : SourceId → Env
  | SourceId.feed => { env with slickdealsRss := fun _ => none }
  | SourceId.amazon => { env with amazonPage := none }
  | SourceId.walmart => { env with walmartPage := none }
  | SourceId.target => { env with targetPage := none }
  | SourceId.grouponCat cid =>
    { env with grouponRss := fun c => if c == cid then none else env.grouponRss c }

/-! ### Auxiliary definitions for the statements and their witnesses -/

/-- Insertion, in key order, of each key's (key-determined) result:
the form both assemblers reduce to. -/
def insertByKey (f : String → List Deal) (keys : List String)
    (d : List (String × List Deal)) : List (String × List Deal) :=
  keys.foldl (fun acc k => dictInsert acc k (f k)) d

/-- Is this network call a fetch of the zip-scoped feed? -/
def isFeedCall : NetCall → Bool
  | NetCall.slickdeals _ => true
  | _ => false

/-- Is this task the feed task? -/
def isFeedTask : CorrelationKey → Bool
  | CorrelationKey.feed _ => true
  | _ => false

/-- A concrete environment in which every upstream request raises. -/
def envFail : Env :=
  { slickdealsRss := fun _ => none
    grouponRss := fun _ => none
    amazonPage := none
    walmartPage := none
    targetPage := none
    now := "2026-10-12T00:00:00" }

/-- A concrete environment in which every upstream request succeeds
with a single well-formed item. -/
def envOne : Env :=
  { slickdealsRss := fun _ => some [{ title := "a", link := "l" }]
    grouponRss := fun _ => some [{ title := "g", link := "m" }]
    amazonPage := some [{ title := some "t", link := some "/p" }]
    walmartPage := some [{ title := some "t", link := some "/p" }]
    targetPage := some [{ title := some "t", link := some "/p" }]
    now := "2026-10-12T00:00:00" }

/-- A concrete valid request whose store list omits the feed key. -/
def reqNoFeed : DiscountRequest :=
  { country := "US", zip := "10001", stores := ["amazon"], categories := ["restaurants"] }

/-- A concrete valid request with the default store list. -/
def reqDefault : DiscountRequest :=
  { country := "US", zip := "10001" }

/-- A concrete request whose zip is five Python digits but not five
ASCII digits (the last character is the superscript two). -/
def reqBadZip : DiscountRequest :=
  { country := "US", zip := "1234²", stores := ["amazon"], categories := [] }

/-- A concrete request whose zip is too short. -/
def reqShortZip : DiscountRequest :=
  { country := "US", zip := "123" }

/-- A concrete request with a non-US country. -/
def reqCanada : DiscountRequest :=
  { country := "CA", zip := "10001" }

/-- A concrete valid request naming only unknown store and category keys. -/
def reqUnknown : DiscountRequest :=
  { country := "US", zip := "10001", stores := ["bestbuy"], categories := ["toys"] }

/-! ### Dict lemmas -/

theorem dictGet_dictInsert_self {α : Type} (d : List (String × α)) (k : String)
    (v : α) : dictGet (dictInsert d k v) k = some v := by
  induction d with
  | nil => simp [dictInsert, dictGet]
  | cons p rest ih =>
    obtain ⟨k', v'⟩ := p
    by_cases h : k' = k
    · subst h; simp [dictInsert, dictGet]
    · simp [dictInsert, dictGet, h, ih]

theorem dictGet_dictInsert_ne {α : Type} (d : List (String × α)) (k k' : String)
    (v : α) (hne : k' ≠ k) : dictGet (dictInsert d k v) k' = dictGet d k' := by
  induction d with
  | nil => simp [dictInsert, dictGet, Ne.symm hne]
  | cons p rest ih =>
    obtain ⟨a, b⟩ := p
    by_cases h : a = k
    · subst h
      simp [dictInsert, dictGet, Ne.symm hne]
    · simp [dictInsert, dictGet, h, ih]

theorem mem_dictKeys_dictInsert {α : Type} (d : List (String × α)) (k a : String)
    (v : α) : a ∈ dictKeys (dictInsert d k v) ↔ a = k ∨ a ∈ dictKeys d := by
  induction d with
  | nil => simp [dictInsert, dictKeys]
  | cons p rest ih =>
    obtain ⟨k', v'⟩ := p
    by_cases h : k' = k
    · subst h; simp [dictInsert, dictKeys]
    · simp only [dictInsert, dictKeys] at ih ⊢
      simp [h, ih]
      tauto

theorem nodup_dictKeys_dictInsert {α : Type} (d : List (String × α)) (k : String)
    (v : α) (h : (dictKeys d).Nodup) : (dictKeys (dictInsert d k v)).Nodup := by
  induction d with
  | nil => simp [dictInsert, dictKeys]
  | cons p rest ih =>
    obtain ⟨k', v'⟩ := p
    simp only [dictKeys, List.map_cons, List.nodup_cons] at h
    by_cases hk : k' = k
    · subst hk
      simpa [dictInsert, dictKeys] using h
    · have h1 : ¬ k' ∈ dictKeys (dictInsert rest k v) := by
        rw [mem_dictKeys_dictInsert]
        push_neg
        exact ⟨hk, h.1⟩
      have hstep : dictInsert ((k', v') :: rest) k v = (k', v') :: dictInsert rest k v := by
        simp [dictInsert, hk]
      rw [hstep]
      show (k' :: dictKeys (dictInsert rest k v)).Nodup
      exact List.nodup_cons.mpr ⟨h1, ih h.2⟩

/-! ### insertByKey lemmas -/

theorem insertByKey_cons (f : String → List Deal) (k : String) (ks : List String)
    (d : List (String × List Deal)) :
    insertByKey f (k :: ks) d = insertByKey f ks (dictInsert d k (f k)) := rfl

theorem dictGet_insertByKey_not_mem (f : String → List Deal) (keys : List String) :
    ∀ (d : List (String × List Deal)) (k : String), k ∉ keys →
      dictGet (insertByKey f keys d) k = dictGet d k := by
  induction keys with
  | nil => intro d k _; rfl
  | cons a l ih =>
    intro d k hk
    rw [insertByKey_cons, ih _ k (fun h => hk (List.mem_cons_of_mem a h)),
      dictGet_dictInsert_ne]
    exact fun h => hk (h ▸ List.mem_cons_self a l)

theorem dictGet_insertByKey_mem (f : String → List Deal) (keys : List String) :
    ∀ (d : List (String × List Deal)) (k : String), k ∈ keys →
      dictGet (insertByKey f keys d) k = some (f k) := by
  induction keys with
  | nil => intro d k hk; simp at hk
  | cons a l ih =>
    intro d k hk
    by_cases hl : k ∈ l
    · rw [insertByKey_cons, ih _ k hl]
    · have hka : k = a := by
        rcases List.mem_cons.mp hk with h | h
        · exact h
        · exact absurd h hl
      subst hka
      rw [insertByKey_cons, dictGet_insertByKey_not_mem f l _ k hl,
        dictGet_dictInsert_self]

theorem mem_dictKeys_insertByKey (f : String → List Deal) (keys : List String) :
    ∀ (d : List (String × List Deal)) (a : String),
      a ∈ dictKeys (insertByKey f keys d) ↔ a ∈ keys ∨ a ∈ dictKeys d := by
  induction keys with
  | nil => intro d a; simp [insertByKey]
  | cons k l ih =>
    intro d a
    rw [insertByKey_cons, ih, mem_dictKeys_dictInsert]
    simp [List.mem_cons]
    tauto

theorem nodup_dictKeys_insertByKey (f : String → List Deal) (keys : List String) :
    ∀ (d : List (String × List Deal)), (dictKeys d).Nodup →
      (dictKeys (insertByKey f keys d)).Nodup := by
  induction keys with
  | nil => intro d h; exact h
  | cons k l ih =>
    intro d h
    rw [insertByKey_cons]
    exact ih _ (nodup_dictKeys_dictInsert d k (f k) h)

theorem insertByKey_congr (f g : String → List Deal) (keys : List String) :
    ∀ (d : List (String × List Deal)), (∀ k ∈ keys, f k = g k) →
      insertByKey f keys d = insertByKey g keys d := by
  induction keys with
  | nil => intro d _; rfl
  | cons k l ih =>
    intro d h
    rw [insertByKey_cons, insertByKey_cons, h k (List.mem_cons_self k l),
      ih _ (fun a ha => h a (List.mem_cons_of_mem k ha))]

/-! ### List indexing lemmas -/

theorem getD_cons_zero {α : Type} (a : α) (l : List α) (dflt : α) :
    (a :: l).getD 0 dflt = a := rfl

theorem getD_cons_succ {α : Type} (a : α) (l : List α) (j : Nat) (dflt : α) :
    (a :: l).getD (j + 1) dflt = l.getD j dflt := rfl

theorem getD_map_lt {α β : Type} (g : α → β) (da : α) (db : β) :
    ∀ (l : List α) (j : Nat), j < l.length →
      (l.map g).getD j db = g (l.getD j da) := by
  intro l
  induction l with
  | nil => intro j hj; simp at hj
  | cons a t ih =>
    intro j hj
    cases j with
    | zero => rfl
    | succ n =>
      rw [List.map_cons, getD_cons_succ, getD_cons_succ]
      exact ih n (by simpa using Nat.lt_of_succ_lt_succ hj)

theorem getD_append_lt {α : Type} (dflt : α) :
    ∀ (l₁ l₂ : List α) (j : Nat), j < l₁.length →
      (l₁ ++ l₂).getD j dflt = l₁.getD j dflt := by
  intro l₁
  induction l₁ with
  | nil => intro l₂ j hj; simp at hj
  | cons a t ih =>
    intro l₂ j hj
    cases j with
    | zero => rfl
    | succ n =>
      rw [List.cons_append, getD_cons_succ, getD_cons_succ]
      exact ih l₂ n (Nat.lt_of_succ_lt_succ hj)

theorem getD_append_add {α : Type} (dflt : α) :
    ∀ (l₁ l₂ : List α) (j : Nat),
      (l₁ ++ l₂).getD (l₁.length + j) dflt = l₂.getD j dflt := by
  intro l₁
  induction l₁ with
  | nil => intro l₂ j; simp
  | cons a t ih =>
    intro l₂ j
    rw [List.cons_append, List.length_cons,
      show t.length + 1 + j = (t.length + j) + 1 by omega, getD_cons_succ]
    exact ih l₂ j

/-! ### Decomposition of the positional assembly -/

theorem assignLoop_cons (d : List (String × List Deal)) (k : String)
    (ks : List String) (results : List (List Deal)) (i : Nat) :
    assignLoop d (k :: ks) results i =
      assignLoop (dictInsert d k (results.getD i [])) ks results (i + 1) := rfl

theorem assignLoop_eq_insertByKey (f : String → List Deal) (keys : List String) :
    ∀ (results : List (List Deal)) (i : Nat) (d : List (String × List Deal)),
      (∀ j, j < keys.length → results.getD (i + j) [] = f (keys.getD j "")) →
      assignLoop d keys results i = insertByKey f keys d := by
  induction keys with
  | nil => intro results i d _; rfl
  | cons k ks ih =>
    intro results i d h
    have h0 : results.getD i [] = f k := by
      have := h 0 (by simp)
      simpa using this
    rw [assignLoop_cons, h0, insertByKey_cons]
    refine ih results (i + 1) _ (fun j hj => ?_)
    have := h (j + 1) (by simpa using Nat.succ_lt_succ hj)
    rw [show i + (j + 1) = i + 1 + j by omega] at this
    simpa [getD_cons_succ] using this

theorem results_getD_zero (env : Env) (req : DiscountRequest) :
    (results_list env req).getD 0 [] = (fetch_slickdeals_by_zip env req.zip).1 := rfl

theorem results_getD_store (env : Env) (req : DiscountRequest) (j : Nat)
    (hj : j < (non_slick_stores req).length) :
    (results_list env req).getD (1 + j) [] =
      (fetch_store_deals env ((non_slick_stores req).getD j "")).1 := by
  unfold results_list
  rw [Nat.add_comm 1 j, getD_cons_succ, getD_append_lt _ _ _ j (by simpa using hj),
    getD_map_lt _ "" _ _ j hj]

theorem results_getD_cat (env : Env) (req : DiscountRequest) (j : Nat)
    (hj : j < req.categories.length) :
    (results_list env req).getD ((non_slick_stores req).length + 1 + j) [] =
      (fetch_category_deals env req.zip (req.categories.getD j "")).1 := by
  unfold results_list
  rw [show (non_slick_stores req).length + 1 + j
        = ((non_slick_stores req).length + j) + 1 by omega, getD_cons_succ,
    show (non_slick_stores req).length
        = ((non_slick_stores req).map (fun s => (fetch_store_deals env s).1)).length
      by simp,
    getD_append_add, getD_map_lt _ "" _ _ j hj]

theorem store_deals_response (env : Env) (req : DiscountRequest) :
    (response env req).store_deals =
      insertByKey (fun s => (fetch_store_deals env s).1) (non_slick_stores req) [] := by
  unfold response
  exact assignLoop_eq_insertByKey _ _ _ 1 _ (fun j hj => results_getD_store env req j hj)

theorem category_deals_response (env : Env) (req : DiscountRequest) :
    (response env req).category_deals =
      insertByKey (fun c => (fetch_category_deals env req.zip c).1) req.categories [] := by
  unfold response
  exact assignLoop_eq_insertByKey _ _ _ _ _ (fun j hj => results_getD_cat env req j hj)

theorem slickdeals_response (env : Env) (req : DiscountRequest) :
    (response env req).slickdeals = (fetch_slickdeals_by_zip env req.zip).1 := rfl

theorem get_discounts_ok (env : Env) (req : DiscountRequest)
    (h : req.country = "US") :
    get_discounts env req = (Except.ok (response env req), calls_list env req) := by
  simp [get_discounts, h]

theorem mem_non_slick (req : DiscountRequest) (s : String) :
    s ∈ non_slick_stores req ↔ s ∈ req.stores ∧ s ≠ "slickdeals" := by
  simp [non_slick_stores]

theorem api_ok (env : Env) (req : DiscountRequest) (hc : req.country = "US")
    (hz : validate_zip req.zip = true) :
    (api_get_discounts env req).1 = Except.ok (response env req) := by
  simp [api_get_discounts, hz, get_discounts_ok env req hc]

theorem api_calls (env : Env) (req : DiscountRequest) (hc : req.country = "US")
    (hz : validate_zip req.zip = true) :
    (api_get_discounts env req).2 = calls_list env req := by
  simp [api_get_discounts, hz, get_discounts_ok env req hc]

/-! ### Per-fetcher facts -/

theorem fetch_store_deals_unknown (env : Env) (s : String) (h1 : s ≠ "amazon")
    (h2 : s ≠ "walmart") (h3 : s ≠ "target") :
    fetch_store_deals env s = ([], []) := by
  unfold fetch_store_deals
  rw [if_neg (by simpa using h1), if_neg (by simpa using h2), if_neg (by simpa using h3)]

theorem fetch_category_deals_unknown (env : Env) (z c : String)
    (h1 : c ≠ "restaurants") (h2 : c ≠ "entertainment") (h3 : c ≠ "clothing") :
    fetch_category_deals env z c = ([], []) := by
  unfold fetch_category_deals category_map
  rw [if_neg (by simpa using h1), if_neg (by simpa using h2), if_neg (by simpa using h3)]

theorem fetch_slickdeals_len (env : Env) (z : String) :
    (fetch_slickdeals_by_zip env z).1.length ≤ 10 := by
  unfold fetch_slickdeals_by_zip
  cases env.slickdealsRss z with
  | none => simp
  | some items => simp [List.length_take]

theorem fetch_store_deals_len (env : Env) (s : String) :
    (fetch_store_deals env s).1.length ≤ 10 := by
  unfold fetch_store_deals fetch_amazon_deals fetch_walmart_deals fetch_target_deals
  by_cases h1 : (s == "amazon") = true
  · rw [if_pos h1]
    cases env.amazonPage with
    | none => simp
    | some items => simp [List.length_take]
  · rw [if_neg h1]
    by_cases h2 : (s == "walmart") = true
    · rw [if_pos h2]
      cases env.walmartPage with
      | none => simp
      | some items => simp [List.length_take]
    · rw [if_neg h2]
      by_cases h3 : (s == "target") = true
      · rw [if_pos h3]
        cases env.targetPage with
        | none => simp
        | some items => simp [List.length_take]
      · rw [if_neg h3]
        simp

theorem fetch_category_deals_len (env : Env) (z c : String) :
    (fetch_category_deals env z c).1.length ≤ 10 := by
  unfold fetch_category_deals
  rcases hm : category_map c with _ | cid
  · simp
  · rcases hg : env.grouponRss cid with _ | items <;> simp [hg, List.length_take]

/-! ### Values stored in the assembled dicts -/

theorem mem_dictInsert {α : Type} (d : List (String × α)) (k : String) (v : α)
    (p : String × α) (hp : p ∈ dictInsert d k v) : p ∈ d ∨ p = (k, v) := by
  induction d with
  | nil => right; simpa [dictInsert] using hp
  | cons q rest ih =>
    obtain ⟨a, b⟩ := q
    by_cases hk : a = k
    · subst hk
      simp only [dictInsert, beq_self_eq_true, if_true] at hp
      rcases List.mem_cons.mp hp with h | h
      · right; exact h
      · left; exact List.mem_cons_of_mem _ h
    · simp only [dictInsert, beq_iff_eq, if_neg hk] at hp
      rcases List.mem_cons.mp hp with h | h
      · left; exact h ▸ List.mem_cons_self _ _
      · rcases ih h with h' | h'
        · left; exact List.mem_cons_of_mem _ h'
        · right; exact h'

theorem dictGet_mem {α : Type} (d : List (String × α)) (k : String) (v : α)
    (h : dictGet d k = some v) : (k, v) ∈ d := by
  induction d with
  | nil => simp [dictGet] at h
  | cons p rest ih =>
    obtain ⟨a, b⟩ := p
    by_cases hk : a = k
    · subst hk
      simp only [dictGet, beq_self_eq_true, if_true, Option.some.injEq] at h
      subst h
      exact List.mem_cons_self _ _
    · simp only [dictGet, beq_iff_eq, if_neg hk] at h
      exact List.mem_cons_of_mem _ (ih h)

theorem mem_insertByKey_values (f : String → List Deal) (keys : List String) :
    ∀ (d : List (String × List Deal)) (p : String × List Deal),
      p ∈ insertByKey f keys d → p ∈ d ∨ ∃ k, p.2 = f k := by
  induction keys with
  | nil => intro d p hp; exact Or.inl hp
  | cons a l ih =>
    intro d p hp
    rw [insertByKey_cons] at hp
    rcases ih _ p hp with h | h
    · rcases mem_dictInsert d a (f a) p h with h' | h'
      · exact Or.inl h'
      · exact Or.inr ⟨a, by rw [h']⟩
    · exact Or.inr h

/-! ### Validation facts -/

theorem asciiDigit_pyDigit (c : Char) (h : isAsciiDigit c = true) :
    pyCharIsDigit c = true := by
  unfold isAsciiDigit at h
  unfold pyCharIsDigit
  rw [h]
  rfl

theorem matchesAsciiZip5_validate (s : String) (h : matchesAsciiZip5 s = true) :
    validate_zip s = true := by
  unfold matchesAsciiZip5 at h
  rw [Bool.and_eq_true] at h
  obtain ⟨hlen, hall⟩ := h
  have hlen' : s.length = 5 := by simpa using hlen
  have hne : s.isEmpty = false := by
    cases hb : s.isEmpty with
    | false => rfl
    | true =>
      have hs : s = "" := (String.isEmpty_iff s).mp hb
      rw [hs] at hlen'
      simp at hlen'
  have hall' : s.data.all pyCharIsDigit = true := by
    rw [List.all_eq_true] at hall ⊢
    intro c hc
    exact asciiDigit_pyDigit c (hall c hc)
  unfold validate_zip pyIsDigit
  simp [hne, hall', hlen']

/-- Fidelity check of the digit table away from ASCII: Python accepts
"1234৫" (Bengali five, U+09EB, a decimal digit), and so does the
modelled validator. -/
theorem validate_zip_accepts_bengali_digit : validate_zip "1234৫" = true := by decide

/-- Fidelity check of the digit table away from ASCII: Python rejects
"1234ⁱ" (superscript latin small letter i, U+2071, not a digit), and so
does the modelled validator. -/
theorem validate_zip_rejects_superscript_i : validate_zip "1234ⁱ" = false := by decide

/-! ### Network-call facts -/

theorem slick_calls (env : Env) (z : String) :
    (fetch_slickdeals_by_zip env z).2 = [NetCall.slickdeals z] := by
  unfold fetch_slickdeals_by_zip
  rcases hs : env.slickdealsRss z with _ | items <;> simp [hs]

theorem amazon_calls (env : Env) : (fetch_amazon_deals env).2 = [NetCall.amazon] := by
  unfold fetch_amazon_deals
  rcases ha : env.amazonPage with _ | items <;> simp [ha]

theorem walmart_calls (env : Env) : (fetch_walmart_deals env).2 = [NetCall.walmart] := by
  unfold fetch_walmart_deals
  rcases ha : env.walmartPage with _ | items <;> simp [ha]

theorem target_calls (env : Env) : (fetch_target_deals env).2 = [NetCall.target] := by
  unfold fetch_target_deals
  rcases ha : env.targetPage with _ | items <;> simp [ha]

theorem store_calls_no_feed (env : Env) (s : String) :
    (fetch_store_deals env s).2.countP isFeedCall = 0 := by
  unfold fetch_store_deals
  by_cases h1 : (s == "amazon") = true
  · rw [if_pos h1, amazon_calls]; rfl
  · rw [if_neg h1]
    by_cases h2 : (s == "walmart") = true
    · rw [if_pos h2, walmart_calls]; rfl
    · rw [if_neg h2]
      by_cases h3 : (s == "target") = true
      · rw [if_pos h3, target_calls]; rfl
      · rw [if_neg h3]; rfl

theorem category_calls_no_feed (env : Env) (z c : String) :
    (fetch_category_deals env z c).2.countP isFeedCall = 0 := by
  unfold fetch_category_deals
  rcases hm : category_map c with _ | cid
  · rfl
  · rcases hg : env.grouponRss cid with _ | items <;> simp [hg, isFeedCall]

theorem countP_flatten_zero {α : Type} (p : α → Bool) (L : List (List α))
    (h : ∀ l ∈ L, l.countP p = 0) : L.flatten.countP p = 0 := by
  induction L with
  | nil => rfl
  | cons a t ih =>
    rw [List.flatten_cons, List.countP_append, h a (List.mem_cons_self a t),
      ih (fun l hl => h l (List.mem_cons_of_mem a hl))]

theorem calls_list_feed_count (env : Env) (req : DiscountRequest) :
    (calls_list env req).countP isFeedCall = 1 := by
  have h1 : (((non_slick_stores req).map
      (fun s => (fetch_store_deals env s).2)).flatten).countP isFeedCall = 0 :=
    countP_flatten_zero _ _ (by
      intro l hl
      rcases List.mem_map.mp hl with ⟨s, _, rfl⟩
      exact store_calls_no_feed env s)
  have h2 : ((req.categories.map
      (fun c => (fetch_category_deals env req.zip c).2)).flatten).countP isFeedCall = 0 :=
    countP_flatten_zero _ _ (by
      intro l hl
      rcases List.mem_map.mp hl with ⟨c, _, rfl⟩
      exact category_calls_no_feed env req.zip c)
  unfold calls_list
  rw [List.countP_append, List.countP_append, h1, h2, slick_calls]
  rfl

/-! ### The by-key assembler reduces to per-slot insertion -/

theorem foldl_assembleStep_stores (lookup : CorrelationKey → List Deal)
    (l : List String) :
    ∀ (acc : List Deal × List (String × List Deal) × List (String × List Deal)),
      (l.map CorrelationKey.store).foldl (assembleStep lookup) acc
        = (acc.1, insertByKey (fun s => lookup (CorrelationKey.store s)) l acc.2.1,
            acc.2.2) := by
  induction l with
  | nil => intro acc; rfl
  | cons k ks ih =>
    intro acc
    rw [List.map_cons, List.foldl_cons, ih (assembleStep lookup acc (CorrelationKey.store k)),
      insertByKey_cons]
    rfl

theorem foldl_assembleStep_cats (lookup : CorrelationKey → List Deal)
    (l : List String) :
    ∀ (acc : List Deal × List (String × List Deal) × List (String × List Deal)),
      (l.map CorrelationKey.category).foldl (assembleStep lookup) acc
        = (acc.1, acc.2.1,
            insertByKey (fun c => lookup (CorrelationKey.category c)) l acc.2.2) := by
  induction l with
  | nil => intro acc; rfl
  | cons k ks ih =>
    intro acc
    rw [List.map_cons, List.foldl_cons,
      ih (assembleStep lookup acc (CorrelationKey.category k)), insertByKey_cons]
    rfl

/-! ### Invariance of each fetcher under failures of other sources -/

theorem fetch_slickdeals_congr (env env' : Env) (z : String)
    (h : env'.slickdealsRss = env.slickdealsRss) :
    fetch_slickdeals_by_zip env' z = fetch_slickdeals_by_zip env z := by
  unfold fetch_slickdeals_by_zip
  rw [h]

theorem fetch_category_congr (env env' : Env) (z c : String)
    (h : env'.grouponRss = env.grouponRss) :
    fetch_category_deals env' z c = fetch_category_deals env z c := by
  unfold fetch_category_deals
  rw [h]

theorem fetch_store_deals_congr (env env' : Env) (k : String)
    (ha : env'.amazonPage = env.amazonPage) (hw : env'.walmartPage = env.walmartPage)
    (ht : env'.targetPage = env.targetPage) :
    fetch_store_deals env' k = fetch_store_deals env k := by
  unfold fetch_store_deals fetch_amazon_deals fetch_walmart_deals fetch_target_deals
  rw [ha, hw, ht]

theorem fetch_store_deals_ne_amazon (env env' : Env) (k : String) (hk : k ≠ "amazon")
    (hw : env'.walmartPage = env.walmartPage) (ht : env'.targetPage = env.targetPage) :
    fetch_store_deals env' k = fetch_store_deals env k := by
  have hfa : (k == "amazon") = false := by simpa using hk
  unfold fetch_store_deals fetch_amazon_deals fetch_walmart_deals fetch_target_deals
  rw [hw, ht]
  simp only [hfa, Bool.false_eq_true, if_false]

theorem fetch_store_deals_ne_walmart (env env' : Env) (k : String) (hk : k ≠ "walmart")
    (ha : env'.amazonPage = env.amazonPage) (ht : env'.targetPage = env.targetPage) :
    fetch_store_deals env' k = fetch_store_deals env k := by
  have hfw : (k == "walmart") = false := by simpa using hk
  unfold fetch_store_deals fetch_amazon_deals fetch_walmart_deals fetch_target_deals
  rw [ha, ht]
  simp only [hfw, Bool.false_eq_true, if_false]

theorem fetch_store_deals_ne_target (env env' : Env) (k : String) (hk : k ≠ "target")
    (ha : env'.amazonPage = env.amazonPage) (hw : env'.walmartPage = env.walmartPage) :
    fetch_store_deals env' k = fetch_store_deals env k := by
  have hft : (k == "target") = false := by simpa using hk
  unfold fetch_store_deals fetch_amazon_deals fetch_walmart_deals fetch_target_deals
  rw [ha, hw]
  simp only [hft, Bool.false_eq_true, if_false]

theorem fetch_store_deals_amazon_none (env : Env) (h : env.amazonPage = none) :
    (fetch_store_deals env "amazon").1 = [] := by
  unfold fetch_store_deals fetch_amazon_deals
  rw [h]
  rfl

theorem fetch_store_deals_walmart_none (env : Env) (h : env.walmartPage = none) :
    (fetch_store_deals env "walmart").1 = [] := by
  unfold fetch_store_deals fetch_walmart_deals
  rw [h]
  rfl

theorem fetch_store_deals_target_none (env : Env) (h : env.targetPage = none) :
    (fetch_store_deals env "target").1 = [] := by
  unfold fetch_store_deals fetch_target_deals
  rw [h]
  rfl

theorem fetch_category_fail_groupon_other (env : Env) (cid z c : String)
    (hc : category_map c ≠ some cid) :
    fetch_category_deals (failSource env (SourceId.grouponCat cid)) z c
      = fetch_category_deals env z c := by
  unfold fetch_category_deals
  rcases hm : category_map c with _ | cat_id
  · rfl
  · have hne : cat_id ≠ cid := by
      intro h
      exact hc (by rw [hm, h])
    simp [failSource, hne]

theorem fetch_category_fail_groupon_self (env : Env) (cid z c : String)
    (hcm : category_map c = some cid) :
    (fetch_category_deals (failSource env (SourceId.grouponCat cid)) z c).1 = [] := by
  unfold fetch_category_deals
  rw [hcm]
  simp [failSource]

/-! ### Invariance of response components -/

theorem store_deals_congr (env env' : Env) (req : DiscountRequest)
    (h : ∀ s ∈ non_slick_stores req, fetch_store_deals env' s = fetch_store_deals env s) :
    (response env' req).store_deals = (response env req).store_deals := by
  rw [store_deals_response, store_deals_response]
  exact insertByKey_congr _ _ _ _ (fun k hk => by rw [h k hk])

theorem category_deals_congr (env env' : Env) (req : DiscountRequest)
    (h : ∀ c ∈ req.categories,
      fetch_category_deals env' req.zip c = fetch_category_deals env req.zip c) :
    (response env' req).category_deals = (response env req).category_deals := by
  rw [category_deals_response, category_deals_response]
  exact insertByKey_congr _ _ _ _ (fun k hk => by rw [h k hk])

theorem slickdeals_resp_congr (env env' : Env) (req : DiscountRequest)
    (h : fetch_slickdeals_by_zip env' req.zip = fetch_slickdeals_by_zip env req.zip) :
    (response env' req).slickdeals = (response env req).slickdeals := by
  rw [slickdeals_response, slickdeals_response, h]

/-! ### Claim theorems -/

/-- C1: for every valid request, the positional re-slicing of the
gathered results list — `results[0]` into the feed slot, `results[i+1]`
into `store_deals[non_slick_stores[i]]`, and
`results[len(non_slick_stores)+1+j]` into `category_deals[categories[j]]`
— yields exactly the same three components as the spec's reference
assembler, which walks the planned task list and looks each task's
result up by its correlation key. -/
theorem c1_positional_eq_bykey (env : Env) (req : DiscountRequest)
    (hc : req.country = "US") (hz : validate_zip req.zip = true) :
    (api_get_discounts env req).1 = Except.ok (response env req) ∧
    ((response env req).slickdeals, (response env req).store_deals,
        (response env req).category_deals)
      = assemble_bykey (plan req) (taskResult env req) := by
  refine ⟨api_ok env req hc hz, ?_⟩
  rw [store_deals_response, category_deals_response, slickdeals_response]
  unfold assemble_bykey plan
  rw [List.foldl_cons, List.foldl_append, foldl_assembleStep_stores,
    foldl_assembleStep_cats]
  rfl

/-- C1 witness at a concrete environment and request. -/
theorem c1_witness :
    reqNoFeed.country = "US" ∧ validate_zip reqNoFeed.zip = true ∧
    ((api_get_discounts envOne reqNoFeed).1 = Except.ok (response envOne reqNoFeed) ∧
      ((response envOne reqNoFeed).slickdeals, (response envOne reqNoFeed).store_deals,
          (response envOne reqNoFeed).category_deals)
        = assemble_bykey (plan reqNoFeed) (taskResult envOne reqNoFeed)) :=
  ⟨rfl, by decide, c1_positional_eq_bykey envOne reqNoFeed rfl (by decide)⟩

/-- C3: make exactly one configured source always fail (raise/time out)
while every other source behaves as before: the request still succeeds
overall, the failing source's slot(s) hold the well-formed empty array,
and every sibling entry is exactly what it is when that source does not
fail — no other source's result is aborted or altered. -/
theorem c3_partial_failure_isolation (env : Env) (req : DiscountRequest)
    (s : SourceId) (hc : req.country = "US") (hz : validate_zip req.zip = true) :
    (api_get_discounts (failSource env s) req).1
        = Except.ok (response (failSource env s) req) ∧
    (match s with
      | SourceId.feed =>
          (response (failSource env SourceId.feed) req).slickdeals = [] ∧
          (response (failSource env SourceId.feed) req).store_deals
            = (response env req).store_deals ∧
          (response (failSource env SourceId.feed) req).category_deals
            = (response env req).category_deals
      | SourceId.amazon =>
          ("amazon" ∈ req.stores →
            dictGet (response (failSource env SourceId.amazon) req).store_deals "amazon"
              = some []) ∧
          (∀ k, k ≠ "amazon" →
            dictGet (response (failSource env SourceId.amazon) req).store_deals k
              = dictGet (response env req).store_deals k) ∧
          (response (failSource env SourceId.amazon) req).slickdeals
            = (response env req).slickdeals ∧
          (response (failSource env SourceId.amazon) req).category_deals
            = (response env req).category_deals
      | SourceId.walmart =>
          ("walmart" ∈ req.stores →
            dictGet (response (failSource env SourceId.walmart) req).store_deals "walmart"
              = some []) ∧
          (∀ k, k ≠ "walmart" →
            dictGet (response (failSource env SourceId.walmart) req).store_deals k
              = dictGet (response env req).store_deals k) ∧
          (response (failSource env SourceId.walmart) req).slickdeals
            = (response env req).slickdeals ∧
          (response (failSource env SourceId.walmart) req).category_deals
            = (response env req).category_deals
      | SourceId.target =>
          ("target" ∈ req.stores →
            dictGet (response (failSource env SourceId.target) req).store_deals "target"
              = some []) ∧
          (∀ k, k ≠ "target" →
            dictGet (response (failSource env SourceId.target) req).store_deals k
              = dictGet (response env req).store_deals k) ∧
          (response (failSource env SourceId.target) req).slickdeals
            = (response env req).slickdeals ∧
          (response (failSource env SourceId.target) req).category_deals
            = (response env req).category_deals
      | SourceId.grouponCat cid =>
          (∀ c, c ∈ req.categories → category_map c = some cid →
            dictGet (response (failSource env (SourceId.grouponCat cid)) req).category_deals c
              = some []) ∧
          (∀ c, category_map c ≠ some cid →
            dictGet (response (failSource env (SourceId.grouponCat cid)) req).category_deals c
              = dictGet (response env req).category_deals c) ∧
          (response (failSource env (SourceId.grouponCat cid)) req).slickdeals
            = (response env req).slickdeals ∧
          (response (failSource env (SourceId.grouponCat cid)) req).store_deals
            = (response env req).store_deals) := by
  refine ⟨api_ok (failSource env s) req hc hz, ?_⟩
  cases s with
  | feed =>
    refine ⟨rfl, ?_, ?_⟩
    · exact store_deals_congr env _ req
        (fun k _ => fetch_store_deals_congr env _ k rfl rfl rfl)
    · exact category_deals_congr env _ req
        (fun c _ => fetch_category_congr env _ req.zip c rfl)
  | amazon =>
    refine ⟨?_, ?_, ?_, ?_⟩
    · intro hmem
      rw [store_deals_response,
        dictGet_insertByKey_mem _ _ _ "amazon"
          ((mem_non_slick req "amazon").mpr ⟨hmem, by decide⟩),
        fetch_store_deals_amazon_none (failSource env SourceId.amazon) rfl]
    · intro k hk
      rw [store_deals_response, store_deals_response]
      by_cases hmem : k ∈ non_slick_stores req
      · rw [dictGet_insertByKey_mem _ _ _ k hmem, dictGet_insertByKey_mem _ _ _ k hmem,
          fetch_store_deals_ne_amazon env (failSource env SourceId.amazon) k hk rfl rfl]
      · rw [dictGet_insertByKey_not_mem _ _ _ k hmem,
          dictGet_insertByKey_not_mem _ _ _ k hmem]
    · exact slickdeals_resp_congr env _ req (fetch_slickdeals_congr env _ req.zip rfl)
    · exact category_deals_congr env _ req
        (fun c _ => fetch_category_congr env _ req.zip c rfl)
  | walmart =>
    refine ⟨?_, ?_, ?_, ?_⟩
    · intro hmem
      rw [store_deals_response,
        dictGet_insertByKey_mem _ _ _ "walmart"
          ((mem_non_slick req "walmart").mpr ⟨hmem, by decide⟩),
        fetch_store_deals_walmart_none (failSource env SourceId.walmart) rfl]
    · intro k hk
      rw [store_deals_response, store_deals_response]
      by_cases hmem : k ∈ non_slick_stores req
      · rw [dictGet_insertByKey_mem _ _ _ k hmem, dictGet_insertByKey_mem _ _ _ k hmem,
          fetch_store_deals_ne_walmart env (failSource env SourceId.walmart) k hk rfl rfl]
      · rw [dictGet_insertByKey_not_mem _ _ _ k hmem,
          dictGet_insertByKey_not_mem _ _ _ k hmem]
    · exact slickdeals_resp_congr env _ req (fetch_slickdeals_congr env _ req.zip rfl)
    · exact category_deals_congr env _ req
        (fun c _ => fetch_category_congr env _ req.zip c rfl)
  | target =>
    refine ⟨?_, ?_, ?_, ?_⟩
    · intro hmem
      rw [store_deals_response,
        dictGet_insertByKey_mem _ _ _ "target"
          ((mem_non_slick req "target").mpr ⟨hmem, by decide⟩),
        fetch_store_deals_target_none (failSource env SourceId.target) rfl]
    · intro k hk
      rw [store_deals_response, store_deals_response]
      by_cases hmem : k ∈ non_slick_stores req
      · rw [dictGet_insertByKey_mem _ _ _ k hmem, dictGet_insertByKey_mem _ _ _ k hmem,
          fetch_store_deals_ne_target env (failSource env SourceId.target) k hk rfl rfl]
      · rw [dictGet_insertByKey_not_mem _ _ _ k hmem,
          dictGet_insertByKey_not_mem _ _ _ k hmem]
    · exact slickdeals_resp_congr env _ req (fetch_slickdeals_congr env _ req.zip rfl)
    · exact category_deals_congr env _ req
        (fun c _ => fetch_category_congr env _ req.zip c rfl)
  | grouponCat cid =>
    refine ⟨?_, ?_, ?_, ?_⟩
    · intro c hmem hcm
      rw [category_deals_response, dictGet_insertByKey_mem _ _ _ c hmem,
        fetch_category_fail_groupon_self env cid req.zip c hcm]
    · intro c hcm
      rw [category_deals_response, category_deals_response]
      by_cases hmem : c ∈ req.categories
      · rw [dictGet_insertByKey_mem _ _ _ c hmem, dictGet_insertByKey_mem _ _ _ c hmem,
          fetch_category_fail_groupon_other env cid req.zip c hcm]
      · rw [dictGet_insertByKey_not_mem _ _ _ c hmem,
          dictGet_insertByKey_not_mem _ _ _ c hmem]
    · exact slickdeals_resp_congr env _ req (fetch_slickdeals_congr env _ req.zip rfl)
    · exact store_deals_congr env _ req
        (fun k _ => fetch_store_deals_congr env _ k rfl rfl rfl)

/-- C3 witness: failing the amazon source alone leaves every other
entry intact and yields the empty array under "amazon". -/
theorem c3_witness :
    reqDefault.country = "US" ∧ validate_zip reqDefault.zip = true ∧
    (api_get_discounts (failSource envOne SourceId.amazon) reqDefault).1
      = Except.ok (response (failSource envOne SourceId.amazon) reqDefault) ∧
    dictGet (response (failSource envOne SourceId.amazon) reqDefault).store_deals "amazon"
      = some [] ∧
    dictGet (response (failSource envOne SourceId.amazon) reqDefault).store_deals "walmart"
      = dictGet (response envOne reqDefault).store_deals "walmart" :=
  ⟨rfl, by decide,
    (c3_partial_failure_isolation envOne reqDefault SourceId.amazon rfl (by decide)).1,
    (c3_partial_failure_isolation envOne reqDefault SourceId.amazon rfl (by decide)).2.1
      (by decide),
    (c3_partial_failure_isolation envOne reqDefault SourceId.amazon rfl (by decide)).2.2.1
      "walmart" (by decide)⟩

/-- C7 counterexample: the parameterless snapshot endpoint of the code is a
static status payload — serving a call (in particular the first call after
any TTL window would have elapsed) attempts zero network calls, so no fresh
recomputation is ever triggered (the claim requires exactly one), and the
response has no `discounts` key at all. -/
theorem c7_counterexample :
    read_root.2 = [] ∧ dictGet read_root.1 "discounts" = none := by
  exact ⟨rfl, by decide⟩

/-- C7 amended: the parameterless endpoint `read_root` is a constant status
payload: every call returns the same body `{"status": ...}` with no
`discounts` key, consults no cache and performs zero fetch calls — so
between any two calls the number of recomputations is zero (in particular
at most one), and no call after any TTL expiry triggers a recomputation. -/
theorem c7_snapshot_is_static_status :
    read_root.1 = [("status", "Discount Aggregator API is running")] ∧
    read_root.2.length = 0 ∧
    dictGet read_root.1 "status" = some "Discount Aggregator API is running" ∧
    dictGet read_root.1 "discounts" = none := by
  refine ⟨rfl, rfl, by decide, by decide⟩

/-- C8: every request with country ≠ "US" is rejected with a client-error
response (a 4xx, never a 5xx) and zero network calls are attempted: the
country check (or pydantic zip validation) fires before the aggregator is
constructed and before any task is dispatched. -/
theorem c8_non_us_rejected (env : Env) (req : DiscountRequest)
    (hc : req.country ≠ "US") :
    (∃ e, (api_get_discounts env req).1 = Except.error e ∧ isClientError e = true) ∧
    (api_get_discounts env req).2 = [] := by
  have hgd : get_discounts env req
      = (Except.error (ApiError.http 400 "Only USA is currently supported"), []) := by
    unfold get_discounts
    rw [if_pos (by simpa using hc)]
  by_cases hz : validate_zip req.zip = true
  · refine ⟨⟨ApiError.http 400 "Only USA is currently supported", ?_, by decide⟩, ?_⟩
    · simp [api_get_discounts, hz, hgd]
    · simp [api_get_discounts, hz, hgd]
  · have hz' : validate_zip req.zip = false := by simpa using hz
    refine ⟨⟨ApiError.validation "ZIP code must be 5 digits", ?_, rfl⟩, ?_⟩
    · simp [api_get_discounts, hz']
    · simp [api_get_discounts, hz']

/-- C8 witness at a concrete non-US request. -/
theorem c8_witness :
    reqCanada.country ≠ "US" ∧
    ((∃ e, (api_get_discounts envOne reqCanada).1 = Except.error e ∧
        isClientError e = true) ∧
      (api_get_discounts envOne reqCanada).2 = []) :=
  ⟨by decide, c8_non_us_rejected envOne reqCanada (by decide)⟩

/-- C10: a category key outside {restaurants, entertainment, clothing}
makes the category fetcher return `[]` with zero network calls, and a store
key outside {amazon, walmart, target} makes the store fetcher return `[]`
with zero network calls; in the assembled response such requested keys map
to the empty array. -/
theorem c10_unknown_keys_empty (env : Env) (zipc : String) (s c : String)
    (req : DiscountRequest)
    (hs : s ∉ (["amazon", "walmart", "target"] : List String))
    (hc : c ∉ (["restaurants", "entertainment", "clothing"] : List String))
    (hsr : s ∈ req.stores) (hss : s ≠ "slickdeals") (hcr : c ∈ req.categories) :
    fetch_store_deals env s = ([], []) ∧
    fetch_category_deals env zipc c = ([], []) ∧
    dictGet (response env req).store_deals s = some [] ∧
    dictGet (response env req).category_deals c = some [] := by
  simp only [List.mem_cons, List.not_mem_nil, or_false, not_or] at hs hc
  have hstore := fetch_store_deals_unknown env s hs.1 hs.2.1 hs.2.2
  have hcat := fetch_category_deals_unknown env req.zip c hc.1 hc.2.1 hc.2.2
  refine ⟨hstore, fetch_category_deals_unknown env zipc c hc.1 hc.2.1 hc.2.2, ?_, ?_⟩
  · rw [store_deals_response,
      dictGet_insertByKey_mem _ _ _ s ((mem_non_slick req s).mpr ⟨hsr, hss⟩), hstore]
  · rw [category_deals_response,
      dictGet_insertByKey_mem _ _ _ c hcr, hcat]

/-- C10 witness at a concrete request naming an unknown store and an
unknown category. -/
theorem c10_witness :
    "bestbuy" ∉ (["amazon", "walmart", "target"] : List String) ∧
    "toys" ∉ (["restaurants", "entertainment", "clothing"] : List String) ∧
    (fetch_store_deals envOne "bestbuy" = ([], []) ∧
      fetch_category_deals envOne "10001" "toys" = ([], []) ∧
      dictGet (response envOne reqUnknown).store_deals "bestbuy" = some [] ∧
      dictGet (response envOne reqUnknown).category_deals "toys" = some []) :=
  ⟨by decide, by decide,
    c10_unknown_keys_empty envOne "10001" "bestbuy" "toys" reqUnknown (by decide)
      (by decide) (by decide) (by decide) (by decide)⟩

/-- C9: every source fetcher returns at most 10 listing records whatever
the upstream answers, and consequently the feed slot and every per-store
and per-category array of the assembled response has length at most 10. -/
theorem c9_at_most_ten (env : Env) (zipc store cat : String)
    (req : DiscountRequest) (k : String) (v : List Deal) (c : String) (w : List Deal)
    (hp : dictGet (response env req).store_deals k = some v)
    (hq : dictGet (response env req).category_deals c = some w) :
    (fetch_slickdeals_by_zip env zipc).1.length ≤ 10 ∧
    (fetch_store_deals env store).1.length ≤ 10 ∧
    (fetch_category_deals env zipc cat).1.length ≤ 10 ∧
    (response env req).slickdeals.length ≤ 10 ∧
    v.length ≤ 10 ∧ w.length ≤ 10 := by
  refine ⟨fetch_slickdeals_len env zipc, fetch_store_deals_len env store,
    fetch_category_deals_len env zipc cat, ?_, ?_, ?_⟩
  · rw [slickdeals_response]; exact fetch_slickdeals_len env req.zip
  · rw [store_deals_response] at hp
    rcases mem_insertByKey_values _ _ _ _ (dictGet_mem _ _ _ hp) with h | ⟨a, ha⟩
    · simp at h
    · rw [show v = ((k, v) : String × List Deal).2 from rfl, ha]
      exact fetch_store_deals_len env a
  · rw [category_deals_response] at hq
    rcases mem_insertByKey_values _ _ _ _ (dictGet_mem _ _ _ hq) with h | ⟨a, ha⟩
    · simp at h
    · rw [show w = ((c, w) : String × List Deal).2 from rfl, ha]
      exact fetch_category_deals_len env req.zip a

/-- C9 witness at a concrete successful environment and request. -/
theorem c9_witness :
    dictGet (response envOne reqNoFeed).store_deals "amazon"
        = some ((fetch_store_deals envOne "amazon").1) ∧
    dictGet (response envOne reqNoFeed).category_deals "restaurants"
        = some ((fetch_category_deals envOne "10001" "restaurants").1) ∧
    ((fetch_slickdeals_by_zip envOne "10001").1.length ≤ 10 ∧
      (fetch_store_deals envOne "amazon").1.length ≤ 10 ∧
      (fetch_category_deals envOne "10001" "restaurants").1.length ≤ 10 ∧
      (response envOne reqNoFeed).slickdeals.length ≤ 10 ∧
      (fetch_store_deals envOne "amazon").1.length ≤ 10 ∧
      (fetch_category_deals envOne "10001" "restaurants").1.length ≤ 10) :=
  ⟨by decide, by decide,
    c9_at_most_ten envOne "10001" "amazon" "restaurants" reqNoFeed "amazon" _ "restaurants" _
      (by decide) (by decide)⟩

/-- C2: for every valid request the assembled `store_deals` dict has
exactly one entry per requested store key other than "slickdeals" — its
key set is exactly the requested non-feed store keys, with no duplicate
keys — and every such key is mapped to the (possibly empty) array the
store fetcher returned, for every environment, i.e. regardless of
upstream success or failure; the request as a whole succeeds, so no
error is propagated. -/
theorem c2_store_deals_exactly_requested (env : Env) (req : DiscountRequest)
    (hc : req.country = "US") (hz : validate_zip req.zip = true) :
    (api_get_discounts env req).1 = Except.ok (response env req) ∧
    (∀ k, k ∈ dictKeys (response env req).store_deals ↔
      (k ∈ req.stores ∧ k ≠ "slickdeals")) ∧
    (dictKeys (response env req).store_deals).Nodup ∧
    (∀ k, k ∈ req.stores → k ≠ "slickdeals" →
      dictGet (response env req).store_deals k = some (fetch_store_deals env k).1) := by
  refine ⟨api_ok env req hc hz, ?_, ?_, ?_⟩
  · intro k
    rw [store_deals_response, mem_dictKeys_insertByKey]
    simp [mem_non_slick, dictKeys]
  · rw [store_deals_response]
    exact nodup_dictKeys_insertByKey _ _ _ (by simp [dictKeys])
  · intro k hk hks
    rw [store_deals_response,
      dictGet_insertByKey_mem _ _ _ k ((mem_non_slick req k).mpr ⟨hk, hks⟩)]

/-- C2 witness at the default store list with every upstream failing:
the key is present and mapped to the fetcher's (empty) result. -/
theorem c2_witness :
    reqDefault.country = "US" ∧ validate_zip reqDefault.zip = true ∧
    dictGet (response envFail reqDefault).store_deals "walmart"
      = some (fetch_store_deals envFail "walmart").1 ∧
    ("walmart" ∈ dictKeys (response envFail reqDefault).store_deals ↔
      ("walmart" ∈ reqDefault.stores ∧ "walmart" ≠ "slickdeals")) :=
  ⟨rfl, by decide,
    (c2_store_deals_exactly_requested envFail reqDefault rfl (by decide)).2.2.2 "walmart"
      (by decide) (by decide),
    (c2_store_deals_exactly_requested envFail reqDefault rfl (by decide)).2.1 "walmart"⟩

/-- C4 counterexample: the zip "1234²" (superscript two as its last
character) does not consist of 5 ASCII digits, yet Python's `isdigit`
accepts it, so the request is not rejected: it is served successfully
and network fetches are attempted — refuting "every zip not matching
^\d{5}$ is rejected before any fetch". -/
theorem c4_counterexample :
    matchesAsciiZip5 reqBadZip.zip = false ∧
    validate_zip reqBadZip.zip = true ∧
    (api_get_discounts envFail reqBadZip).1 = Except.ok (response envFail reqBadZip) ∧
    (api_get_discounts envFail reqBadZip).2 ≠ [] := by
  exact ⟨by decide, by decide, rfl, by decide⟩

/-- C4 amended: the validator accepts exactly the zips of length 5 whose
characters are all Python digits (Unicode digits included).  Every
request whose zip fails that test is rejected with a client-error
(validation) response before any fetch — zero network calls — and every
zip of exactly 5 ASCII digits passes the validation; however, as the
counterexample shows, some zips that are not 5 ASCII digits also pass. -/
theorem c4_zip_validation (env : Env) (req req' : DiscountRequest)
    (h : validate_zip req.zip = false) (h' : matchesAsciiZip5 req'.zip = true) :
    (api_get_discounts env req).1
        = Except.error (ApiError.validation "ZIP code must be 5 digits") ∧
    isClientError (ApiError.validation "ZIP code must be 5 digits") = true ∧
    (api_get_discounts env req).2 = [] ∧
    validate_zip req'.zip = true := by
  refine ⟨?_, rfl, ?_, matchesAsciiZip5_validate req'.zip h'⟩
  · simp [api_get_discounts, h]
  · simp [api_get_discounts, h]

/-- C4 witness: a too-short zip is rejected with zero fetches; the
5-ASCII-digit zip "10001" passes. -/
theorem c4_witness :
    validate_zip reqShortZip.zip = false ∧ matchesAsciiZip5 reqDefault.zip = true ∧
    ((api_get_discounts envOne reqShortZip).1
        = Except.error (ApiError.validation "ZIP code must be 5 digits") ∧
      isClientError (ApiError.validation "ZIP code must be 5 digits") = true ∧
      (api_get_discounts envOne reqShortZip).2 = [] ∧
      validate_zip reqDefault.zip = true) :=
  ⟨by decide, by decide, c4_zip_validation envOne reqShortZip reqDefault (by decide) (by decide)⟩

/-- C5 counterexample: the request `reqNoFeed` does not contain
"slickdeals" among its store keys, yet the handler still plans exactly
one feed task and still attempts the feed fetch — refuting "when
slickdeals is absent from storeKeys, no feed task is emitted and no
feed fetch is performed". -/
theorem c5_counterexample :
    "slickdeals" ∉ reqNoFeed.stores ∧
    (plan reqNoFeed).countP isFeedTask = 1 ∧
    NetCall.slickdeals reqNoFeed.zip ∈ (api_get_discounts envFail reqNoFeed).2 := by
  exact ⟨by decide, by decide, by decide⟩

/-- C5 amended: for every valid request the handler emits exactly one
feed task (identifier = the request's zip) and attempts exactly one
feed fetch, unconditionally — whether or not "slickdeals" appears in
the requested store keys. -/
theorem c5_feed_task_unconditional (env : Env) (req : DiscountRequest)
    (hc : req.country = "US") (hz : validate_zip req.zip = true) :
    (plan req).countP isFeedTask = 1 ∧
    (api_get_discounts env req).2.countP isFeedCall = 1 ∧
    NetCall.slickdeals req.zip ∈ (api_get_discounts env req).2 := by
  refine ⟨?_, ?_, ?_⟩
  · unfold plan
    rw [List.countP_cons_of_pos _ _ (by rfl), List.countP_append, List.countP_map,
      List.countP_map]
    simp [isFeedTask, Function.comp_def]
  · rw [api_calls env req hc hz]
    exact calls_list_feed_count env req
  · rw [api_calls env req hc hz]
    unfold calls_list
    rw [slick_calls]
    exact List.mem_append_left _ (List.mem_singleton_self _)

/-- C5 witness at a request omitting "slickdeals". -/
theorem c5_witness :
    reqNoFeed.country = "US" ∧ validate_zip reqNoFeed.zip = true ∧
    ((plan reqNoFeed).countP isFeedTask = 1 ∧
      (api_get_discounts envOne reqNoFeed).2.countP isFeedCall = 1 ∧
      NetCall.slickdeals reqNoFeed.zip ∈ (api_get_discounts envOne reqNoFeed).2) :=
  ⟨rfl, by decide, c5_feed_task_unconditional envOne reqNoFeed rfl (by decide)⟩

/-- C6 counterexample: the code keeps no per-caller admission state at
all, so eleven back-to-back calls from one identity are all processed
identically: the 11th call (index 10) still returns the full successful
response instead of the rate-limit rejection the claim requires. -/
theorem c6_counterexample :
    ((List.range 11).map (fun _ => (api_get_discounts envFail reqDefault).1)).getD 10
        (Except.error (ApiError.http 500 ""))
      = Except.ok (response envFail reqDefault) := by
  rfl

/-- C6 amended: the service implements no rate limiter: the result of a
request does not depend on any call history, and in any sequence of n
identical valid calls every one of them — in particular the 11th within
any 60-second window — is admitted and served the full successful
response; no call is ever rejected for rate-limiting reasons. -/
theorem c6_no_rate_limiting (env : Env) (req : DiscountRequest) (n i : Nat)
    (hc : req.country = "US") (hz : validate_zip req.zip = true) (hi : i < n) :
    ((List.range n).map (fun _ => (api_get_discounts env req).1)).getD i
        (Except.error (ApiError.http 500 ""))
      = Except.ok (response env req) := by
  rw [getD_map_lt _ 0 _ (List.range n) i (by simpa using hi)]
  exact api_ok env req hc hz

/-- C6 witness: the 11th of 11 calls is served successfully. -/
theorem c6_witness :
    reqDefault.country = "US" ∧ validate_zip reqDefault.zip = true ∧ 10 < 11 ∧
    ((List.range 11).map (fun _ => (api_get_discounts envOne reqDefault).1)).getD 10
        (Except.error (ApiError.http 500 ""))
      = Except.ok (response envOne reqDefault) :=
  ⟨rfl, by decide, by decide,
    c6_no_rate_limiting envOne reqDefault 11 10 rfl (by decide) (by decide)⟩

end DollDay
